import Mathlib

/-!
Verification of the plan-execution core of the `claude-to-codex` repository.

The definitions below are a shallow embedding of `src/codex_orchestrator.py`
(class `CodexOrchestrator`) together with the bounded-log logic of
`src/monitor.py` / `src/monitor_v2.py` (the monitoring wrappers).

Modelling conventions:
- Timestamps (`datetime.now().isoformat()`) are opaque `Nat` values supplied
  explicitly, one per clock read, since the embedding is pure.
- The external `codex` subprocess is abstracted by a `Behavior` oracle saying
  how a given spawn attempt ends: normal termination with an exit code and
  captured output, a `subprocess.TimeoutExpired` from `communicate`, or some
  other Python exception raised inside the `try` block (spawn failure,
  resource exhaustion, ...).
- Python result dictionaries have different key sets on different code paths;
  they are embedded as a structure with `Option` fields (`none` = key absent).
- Python float formatting `f"{x:.1f}"` is modelled exactly on rationals by
  round-half-even of `1000 * completed / total`; for the magnitudes reachable
  here this agrees with IEEE-double formatting.
-/

namespace ClaudeToCodex

/-- One entry of a task plan, mirroring the step dictionaries consumed by
`CodexOrchestrator.execute_plan` (`step.get('description', '')`,
`step.get('instruction', '')`, `step.get('context', '')`,
`step.get('critical', True)`); the `critical` field holds the value of the
dictionary lookup with its `True` default already applied. -/
structure Step where
  description : String
  instruction : String
  context : String
  critical : Bool
  deriving DecidableEq

/-- Classification of Python exceptions that can escape the `try` body of
`execute_codex_command` other than `TimeoutExpired`: spawn failures
(`FileNotFoundError`, `PermissionError`), OS-level resource exhaustion
(`OSError`: cannot fork / cannot allocate a pipe), or anything else. -/
inductive PyExcClass where
  | fileNotFound
  | permissionDenied
  | resourceExhaustion
  | otherError
  deriving DecidableEq

/-- How one subprocess interaction ends, abstracting the `codex` CLI:
`normal` = `communicate` returns (exit code, stdout, stderr) within the
timeout; `timeoutExpired` = `communicate` raises `subprocess.TimeoutExpired`
(carrying the output captured so far, which the source discards); `raises` =
`Popen`/`communicate` raises some other exception. -/
inductive Behavior where
  | normal (returncode : Int) (stdout stderr : String)
  | timeoutExpired (pout perr : String)
  | raises (cls : PyExcClass) (msg : String)
  deriving DecidableEq

/-- A Python exception value propagating out of the `try` body. -/
inductive PyExc where
  | timeoutExpired (pout perr : String)
  | exc (cls : PyExcClass) (msg : String)
  deriving DecidableEq

/-- The result dictionary built by `execute_codex_command`
(src/codex_orchestrator.py:85-119). `none` marks a key that is absent on the
corresponding code path (the timeout and exception paths build a smaller
dictionary without `stdout`/`stderr`/`returncode`). -/
structure ExecResult where
  timestamp : Nat
  instruction : String
  stdout : Option String
  stderr : Option String
  returncode : Option Int
  error : Option String
  success : Bool
  deriving DecidableEq

/-- The mutable attributes set by `CodexOrchestrator.__init__`
(src/codex_orchestrator.py:20-25). -/
structure OrchestratorState where
  codex_path : String
  working_dir : String
  execution_log : List ExecResult
  task_plan : List Step
  current_task : Option String
  deriving DecidableEq

/-- One element of the `results` list accumulated by `execute_plan`
(src/codex_orchestrator.py:145-149): `{'step': i, 'description': ...,
'result': result}`. -/
structure StepResult where
  step : Nat
  description : String
  result : ExecResult
  deriving DecidableEq

/-- The `report['summary']` dictionary of `generate_report`
(src/codex_orchestrator.py:168-173). `execution_time` is the
`datetime.now().isoformat()` reading taken inside `generate_report`. -/
structure ReportSummary where
  total_steps : Nat
  completed_steps : Nat
  success_rate : String
  execution_time : Nat
  deriving DecidableEq

/-- The report dictionary of `generate_report`
(src/codex_orchestrator.py:167-176). -/
structure Report where
  summary : ReportSummary
  steps : List StepResult
  logs : List ExecResult
  deriving DecidableEq

/-- The `timeout=300` argument of `process.communicate`
(src/codex_orchestrator.py:83): a fixed 5-minute timeout in seconds. -/
def codexTimeoutSeconds : Nat := 300

/-- Round-half-even of `a / b` (for `b > 0`), the rounding Python's `:.1f`
format applies to the scaled value. -/
def roundHalfEvenDiv (a b : Nat) : Nat :=
  if 2 * (a % b) < b then a / b
  else if b < 2 * (a % b) then a / b + 1
  else if (a / b) % 2 = 0 then a / b else a / b + 1

/-- The string `f"{(completed/total)*100:.1f}%"` for `total > 0`: the exact
rational `100 * completed / total` rendered with one fractional digit. -/
def formatRate1f (completed total : Nat) : String :=
  Nat.repr (roundHalfEvenDiv (1000 * completed) total / 10) ++ "." ++
    Nat.repr (roundHalfEvenDiv (1000 * completed) total % 10) ++ "%"

/-- `f"{(completed_steps/total_steps)*100:.1f}%" if total_steps > 0 else "0%"`
(src/codex_orchestrator.py:171). -/
def success_rate_str (completed total : Nat) : String :=
  if 0 < total then formatRate1f completed total else "0%"

/-- Decides whether a string has the shape `<digits>.<digit>%`, i.e. is a
percentage rendered with exactly one fractional digit. -/
def isOneFracDigitPercent (s : String) : Bool :=
  match s.data.reverse with
  | '%' :: d :: '.' :: rest => d.isDigit && !rest.isEmpty && rest.all Char.isDigit
  | _ => false

/-- Net effect of `CodexOrchestrator.execute_codex_command`
(src/codex_orchestrator.py:47-119) for a given subprocess behavior, returning
the updated orchestrator state and the result dictionary. On normal
termination the full result dictionary is built and appended to
`self.execution_log`; the `except TimeoutExpired` handler kills the process
and returns a reduced dictionary (no `stdout`/`stderr`/`returncode` keys, no
log append); the `except Exception` handler likewise returns a reduced
dictionary with `error = str(e)` and no log append. -/
def execute_codex_command (st : OrchestratorState) (instruction context : String)
    (now : Nat) (beh : Behavior) : OrchestratorState × ExecResult :=
  match beh with
  | .normal rc out err =>
    ({ st with execution_log := st.execution_log ++
        [{ timestamp := now, instruction := instruction, stdout := some out,
           stderr := some err, returncode := some rc, error := none,
           success := rc == 0 }] },
     { timestamp := now, instruction := instruction, stdout := some out,
       stderr := some err, returncode := some rc, error := none,
       success := rc == 0 })
  | .timeoutExpired _ _ =>
    (st, { timestamp := now, instruction := instruction, stdout := none,
           stderr := none, returncode := none,
           error := some "Timeout after 5 minutes", success := false })
  | .raises _ msg =>
    (st, { timestamp := now, instruction := instruction, stdout := none,
           stderr := none, returncode := none, error := some msg,
           success := false })

/-- The `try` body of `execute_codex_command` (src/codex_orchestrator.py:53-101)
before exception handling: normal termination produces the result (and the log
append, which happens inside the `try`); a timeout or another exception
propagates as a raised `PyExc`. -/
def execute_codex_command_try (st : OrchestratorState) (instruction context : String)
    (now : Nat) (beh : Behavior) : Except PyExc (OrchestratorState × ExecResult) :=
  match beh with
  | .normal rc out err =>
    .ok (execute_codex_command st instruction context now (.normal rc out err))
  | .timeoutExpired pout perr => .error (.timeoutExpired pout perr)
  | .raises cls msg => .error (.exc cls msg)

/-- `execute_codex_command` with its two `except` clauses made explicit
(src/codex_orchestrator.py:103-119): `except subprocess.TimeoutExpired` and
the blanket `except Exception` both swallow the exception and return a result
dictionary, so the `Except` value records whether anything escapes to the
caller. -/
def execute_codex_command_catching (st : OrchestratorState)
    (instruction context : String) (now : Nat) (beh : Behavior) :
    Except PyExc (OrchestratorState × ExecResult) :=
  match execute_codex_command_try st instruction context now beh with
  | .ok r => .ok r
  | .error (.timeoutExpired _ _) =>
    .ok (st, { timestamp := now, instruction := instruction, stdout := none,
               stderr := none, returncode := none,
               error := some "Timeout after 5 minutes", success := false })
  | .error (.exc _ msg) =>
    .ok (st, { timestamp := now, instruction := instruction, stdout := none,
               stderr := none, returncode := none, error := some msg,
               success := false })

/-- Whether a given subprocess behavior leads to `result['success']`: only a
normal termination with exit code 0 (src/codex_orchestrator.py:91). -/
def behSuccess : Behavior → Bool
  | .normal rc _ _ => rc == 0
  | _ => false

/-- Whether a behavior is OS-level resource exhaustion (cannot fork / cannot
allocate a pipe). -/
def isResourceExhaustion : Behavior → Bool
  | .raises .resourceExhaustion _ => true
  | _ => false

/-- `generate_report` (src/codex_orchestrator.py:162-176): the report built
from the current plan length, the accumulated step results and the full
`self.execution_log`; `now` is the `datetime.now()` reading taken inside the
call. The function also serialises this report to a timestamped JSON file,
modelled by `generate_report_file` below. -/
def generate_report (st : OrchestratorState) (results : List StepResult)
    (now : Nat) : Report :=
  { summary :=
      { total_steps := st.task_plan.length,
        completed_steps := (results.filter (fun r => r.result.success)).length,
        success_rate := success_rate_str
          (results.filter (fun r => r.result.success)).length st.task_plan.length,
        execution_time := now },
    steps := results,
    logs := st.execution_log }

/-- The name of the report file written by `generate_report`
(src/codex_orchestrator.py:179), derived from the current wall-clock time. -/
def report_filename (now : Nat) : String :=
  "codex_report_" ++ Nat.repr now ++ ".json"

/-- The on-disk write performed by `generate_report`
(src/codex_orchestrator.py:179-181): the (time-stamped) file name and the
report serialised into it. -/
def generate_report_file (st : OrchestratorState) (results : List StepResult)
    (now : Nat) : String × Report :=
  (report_filename now, generate_report st results now)

/-- The step loop of `CodexOrchestrator.execute_plan`
(src/codex_orchestrator.py:130-158): `enumerate(self.task_plan, 1)`; a step
with empty `instruction` is skipped (`continue`); otherwise the step runs via
`execute_codex_command` with per-step clock reading `ts i` and behavior
`beh i`, its result is appended to `results`, and
`if not result['success'] and step.get('critical', True): break`. The
`time.sleep(2)` pause carries no state and is not modelled. -/
def execute_plan_loop (beh : Nat → Behavior) (ts : Nat → Nat) :
    List Step → Nat → OrchestratorState → List StepResult →
    OrchestratorState × List StepResult
  | [], _, st, acc => (st, acc)
  | step :: rest, i, st, acc =>
    if step.instruction = "" then
      execute_plan_loop beh ts rest (i + 1) st acc
    else
      if !(execute_codex_command st step.instruction step.context (ts i) (beh i)).2.success
          && step.critical then
        ((execute_codex_command st step.instruction step.context (ts i) (beh i)).1,
         acc ++ [{ step := i, description := step.description,
                   result := (execute_codex_command st step.instruction step.context (ts i) (beh i)).2 }])
      else
        execute_plan_loop beh ts rest (i + 1)
          (execute_codex_command st step.instruction step.context (ts i) (beh i)).1
          (acc ++ [{ step := i, description := step.description,
                     result := (execute_codex_command st step.instruction step.context (ts i) (beh i)).2 }])

/-- `CodexOrchestrator.execute_plan` (src/codex_orchestrator.py:128-160): run
the step loop over `self.task_plan` starting at index 1 with an empty results
list, then `generate_report(results)` (whose clock reading is `now`). -/
def execute_plan (st : OrchestratorState) (beh : Nat → Behavior)
    (ts : Nat → Nat) (now : Nat) : OrchestratorState × Report :=
  ((execute_plan_loop beh ts st.task_plan 1 st []).1,
   generate_report (execute_plan_loop beh ts st.task_plan 1 st []).1
     (execute_plan_loop beh ts st.task_plan 1 st []).2 now)

/-- The patched `execute_codex_command` installed by the monitoring wrappers
(`MonitoredOrchestrator.monitored_execute_command`, src/monitor.py:105-140;
`MonitoredOrchestratorV2._monitored_execute_command`,
src/monitor_v2.py:145-187): it logs/broadcasts to monitor state (modelled
separately via `log_and_broadcast`) and delegates to the original method,
returning its result unchanged. -/
def monitored_execute_command (st : OrchestratorState)
    (instruction context : String) (now : Nat) (beh : Behavior) :
    OrchestratorState × ExecResult :=
  execute_codex_command st instruction context now beh

/-- The step loop of the monitoring wrappers' plan execution
(`MonitoredOrchestrator.monitored_execute_plan`, src/monitor.py:150-173;
`MonitoredOrchestratorV2._monitored_execute_plan`, src/monitor_v2.py:205-250):
like `execute_plan_loop` but with **no** empty-instruction skip — every step
is sent to `execute_codex_command`, then
`if not result['success'] and step.get('critical', True): break`. -/
def monitored_execute_plan_loop (beh : Nat → Behavior) (ts : Nat → Nat) :
    List Step → Nat → OrchestratorState → List StepResult →
    OrchestratorState × List StepResult
  | [], _, st, acc => (st, acc)
  | step :: rest, i, st, acc =>
    if !(monitored_execute_command st step.instruction step.context (ts i) (beh i)).2.success
        && step.critical then
      ((monitored_execute_command st step.instruction step.context (ts i) (beh i)).1,
       acc ++ [{ step := i, description := step.description,
                 result := (monitored_execute_command st step.instruction step.context (ts i) (beh i)).2 }])
    else
      monitored_execute_plan_loop beh ts rest (i + 1)
        (monitored_execute_command st step.instruction step.context (ts i) (beh i)).1
        (acc ++ [{ step := i, description := step.description,
                   result := (monitored_execute_command st step.instruction step.context (ts i) (beh i)).2 }])

/-- The monitored plan execution
(src/monitor.py:142-182, src/monitor_v2.py:189-272): run the un-skipping loop
over `self.orchestrator.task_plan`, then `self.orchestrator.generate_report(results)`.
Status/broadcast updates touch only monitor state and are modelled separately. -/
def monitored_execute_plan (st : OrchestratorState) (beh : Nat → Behavior)
    (ts : Nat → Nat) (now : Nat) : OrchestratorState × Report :=
  ((monitored_execute_plan_loop beh ts st.task_plan 1 st []).1,
   generate_report (monitored_execute_plan_loop beh ts st.task_plan 1 st []).1
     (monitored_execute_plan_loop beh ts st.task_plan 1 st []).2 now)

/-- One entry of the central monitor log (`log_entry` in
src/monitor.py:63-68 and src/monitor_v2.py:83-88); the `details` payload is
irrelevant to the retention logic and omitted. -/
structure LogEntry where
  timestamp : Nat
  level : String
  message : String
  deriving DecidableEq

/-- The log-retention update of `log_message` (src/monitor.py:61-75) and
`log_and_broadcast` (src/monitor_v2.py:81-101): append the entry to
`current_execution['logs']` and, if the list now exceeds 100 entries, keep
only the last 100 (`logs[-100:]`). -/
def log_and_broadcast (logs : List LogEntry) (entry : LogEntry) : List LogEntry :=
  if (logs ++ [entry]).length > 100 then
    (logs ++ [entry]).drop ((logs ++ [entry]).length - 100)
  else
    logs ++ [entry]

/-- The replay sent to a newly connecting observer (`handle_connect`,
src/monitor.py:46-50 and src/monitor_v2.py:51-60): the server emits the
current state, whose `logs` field is the retained bounded history. -/
def handle_connect_replay (logs : List LogEntry) : List LogEntry := logs

/-- The list of 1-based indices `[i, i+1, ..., i+n-1]` of the steps attempted
by a run, used to state execution order. -/
def stepIndices (i : Nat) : Nat → List Nat
  | 0 => []
  | n + 1 => i :: stepIndices (i + 1) n

/-! ### Helper lemmas -/

theorem execute_success_eq (st : OrchestratorState) (instruction context : String)
    (now : Nat) (beh : Behavior) :
    (execute_codex_command st instruction context now beh).2.success = behSuccess beh := by
  cases beh <;> rfl

theorem execute_task_plan_eq (st : OrchestratorState) (instruction context : String)
    (now : Nat) (beh : Behavior) :
    (execute_codex_command st instruction context now beh).1.task_plan = st.task_plan := by
  cases beh <;> rfl

theorem execute_log_extends (st : OrchestratorState) (instruction context : String)
    (now : Nat) (beh : Behavior) :
    ∃ tail, (execute_codex_command st instruction context now beh).1.execution_log
      = st.execution_log ++ tail := by
  cases beh with
  | normal rc out err => exact ⟨_, rfl⟩
  | timeoutExpired pout perr => exact ⟨[], by simp [execute_codex_command]⟩
  | raises cls msg => exact ⟨[], by simp [execute_codex_command]⟩

theorem loop_task_plan (beh : Nat → Behavior) (ts : Nat → Nat) (steps : List Step) :
    ∀ (i : Nat) (st : OrchestratorState) (acc : List StepResult),
      (execute_plan_loop beh ts steps i st acc).1.task_plan = st.task_plan := by
  induction steps with
  | nil => intro i st acc; rfl
  | cons s rest ih =>
    intro i st acc
    rw [execute_plan_loop]
    split
    · exact ih (i + 1) st acc
    · split
      · exact execute_task_plan_eq ..
      · rw [ih]; exact execute_task_plan_eq ..

theorem loop_log_extends (beh : Nat → Behavior) (ts : Nat → Nat) (steps : List Step) :
    ∀ (i : Nat) (st : OrchestratorState) (acc : List StepResult),
      ∃ tail, (execute_plan_loop beh ts steps i st acc).1.execution_log
        = st.execution_log ++ tail := by
  induction steps with
  | nil => intro i st acc; exact ⟨[], by simp [execute_plan_loop]⟩
  | cons s rest ih =>
    intro i st acc
    rw [execute_plan_loop]
    split
    · exact ih (i + 1) st acc
    · split
      · exact execute_log_extends ..
      · obtain ⟨t1, h1⟩ := execute_log_extends st s.instruction s.context (ts i) (beh i)
        obtain ⟨t2, h2⟩ := ih (i + 1)
          (execute_codex_command st s.instruction s.context (ts i) (beh i)).1
          (acc ++ [⟨i, s.description,
            (execute_codex_command st s.instruction s.context (ts i) (beh i)).2⟩])
        exact ⟨t1 ++ t2, by rw [h2, h1, List.append_assoc]⟩

theorem loop_noncrit_fail (beh : Nat → Behavior) (ts : Nat → Nat)
    (hfail : ∀ j, behSuccess (beh j) = false) (steps : List Step) :
    ∀ (i : Nat) (st : OrchestratorState) (acc : List StepResult),
      (∀ s ∈ steps, s.instruction ≠ "" ∧ s.critical = false) →
      (execute_plan_loop beh ts steps i st acc).2.length = acc.length + steps.length
      ∧ ((execute_plan_loop beh ts steps i st acc).2.filter
            (fun r => r.result.success)).length
          = (acc.filter (fun r => r.result.success)).length
      ∧ (execute_plan_loop beh ts steps i st acc).2.map (fun r => r.step)
          = acc.map (fun r => r.step) ++ stepIndices i steps.length := by
  induction steps with
  | nil => intro i st acc _; simp [execute_plan_loop, stepIndices]
  | cons s rest ih =>
    intro i st acc h
    have h1 : s.instruction ≠ "" := (h s (List.mem_cons_self s rest)).1
    have h2 : s.critical = false := (h s (List.mem_cons_self s rest)).2
    have hrest : ∀ x ∈ rest, x.instruction ≠ "" ∧ x.critical = false :=
      fun x hx => h x (List.mem_cons_of_mem s hx)
    have hs : (execute_codex_command st s.instruction s.context (ts i) (beh i)).2.success
        = false := by rw [execute_success_eq]; exact hfail i
    rw [execute_plan_loop, if_neg h1, h2]
    rw [if_neg (by simp)]
    obtain ⟨ihl, ihf, ihm⟩ := ih (i + 1)
      (execute_codex_command st s.instruction s.context (ts i) (beh i)).1
      (acc ++ [⟨i, s.description,
        (execute_codex_command st s.instruction s.context (ts i) (beh i)).2⟩]) hrest
    refine ⟨?_, ?_, ?_⟩
    · rw [ihl]; simp; omega
    · rw [ihf]; simp [List.filter_append, List.filter_cons, hs]
    · rw [ihm]; simp [List.map_append, stepIndices]

theorem loop_prefix_crit_fail (beh : Nat → Behavior) (ts : Nat → Nat) :
    ∀ (pre : List Step) (fstep : Step) (post : List Step) (i : Nat)
      (st : OrchestratorState) (acc : List StepResult),
      (∀ s ∈ pre, s.instruction ≠ "") → fstep.instruction ≠ "" →
      fstep.critical = true →
      (∀ j, i ≤ j → j < i + pre.length → behSuccess (beh j) = true) →
      behSuccess (beh (i + pre.length)) = false →
      (execute_plan_loop beh ts (pre ++ fstep :: post) i st acc).2.length
          = acc.length + (pre.length + 1)
      ∧ ((execute_plan_loop beh ts (pre ++ fstep :: post) i st acc).2.filter
            (fun r => r.result.success)).length
          = (acc.filter (fun r => r.result.success)).length + pre.length
      ∧ (execute_plan_loop beh ts (pre ++ fstep :: post) i st acc).2.map
            (fun r => r.step)
          = acc.map (fun r => r.step) ++ stepIndices i (pre.length + 1) := by
  intro pre
  induction pre with
  | nil =>
    intro fstep post i st acc _ hf1 hcrit _ hfail
    have hs : (execute_codex_command st fstep.instruction fstep.context (ts i) (beh i)).2.success
        = false := by
      rw [execute_success_eq]; simpa using hfail
    rw [List.nil_append, execute_plan_loop, if_neg hf1, hs, hcrit]
    rw [if_pos (by simp)]
    refine ⟨by simp, ?_, by simp [stepIndices]⟩
    simp [List.filter_append, List.filter_cons, hs]
  | cons s pre2 ih =>
    intro fstep post i st acc hpre hf1 hcrit hsucc hfail
    have h1 : s.instruction ≠ "" := hpre s (List.mem_cons_self s pre2)
    have hpre2 : ∀ x ∈ pre2, x.instruction ≠ "" :=
      fun x hx => hpre x (List.mem_cons_of_mem s hx)
    have hs : (execute_codex_command st s.instruction s.context (ts i) (beh i)).2.success
        = true := by
      rw [execute_success_eq]
      exact hsucc i (Nat.le_refl i) (by simp)
    rw [List.cons_append, execute_plan_loop, if_neg h1, hs]
    rw [if_neg (by simp)]
    have hsucc2 : ∀ j, i + 1 ≤ j → j < (i + 1) + pre2.length → behSuccess (beh j) = true := by
      intro j hj1 hj2
      exact hsucc j (Nat.le_of_succ_le hj1) (by simp at hj2 ⊢; omega)
    have hfail2 : behSuccess (beh ((i + 1) + pre2.length)) = false := by
      have he : (i + 1) + pre2.length = i + (s :: pre2).length := by simp; omega
      rw [he]; exact hfail
    obtain ⟨ihl, ihf, ihm⟩ := ih fstep post (i + 1)
      (execute_codex_command st s.instruction s.context (ts i) (beh i)).1
      (acc ++ [⟨i, s.description,
        (execute_codex_command st s.instruction s.context (ts i) (beh i)).2⟩])
      hpre2 hf1 hcrit hsucc2 hfail2
    refine ⟨?_, ?_, ?_⟩
    · rw [ihl]; simp; omega
    · rw [ihf]; simp [List.filter_append, List.filter_cons, hs]; omega
    · rw [ihm]; simp [List.map_append, stepIndices]

theorem monitored_loop_eq (beh : Nat → Behavior) (ts : Nat → Nat) (steps : List Step) :
    ∀ (i : Nat) (st : OrchestratorState) (acc : List StepResult),
      (∀ s ∈ steps, s.instruction ≠ "") →
      monitored_execute_plan_loop beh ts steps i st acc
        = execute_plan_loop beh ts steps i st acc := by
  induction steps with
  | nil => intro i st acc _; rfl
  | cons s rest ih =>
    intro i st acc h
    have h1 : s.instruction ≠ "" := h s (List.mem_cons_self s rest)
    have hrest : ∀ x ∈ rest, x.instruction ≠ "" :=
      fun x hx => h x (List.mem_cons_of_mem s hx)
    rw [monitored_execute_plan_loop, execute_plan_loop, if_neg h1,
        monitored_execute_command]
    split
    · rfl
    · exact ih (i + 1) _ _ hrest

theorem div_floor_close (a b : Nat) (hb : 0 < b)
    (h : 2 * (a % b) ≤ b) :
    |((a / b : Nat) : ℚ) - (a : ℚ) / (b : ℚ)| ≤ 1 / 2 := by
  have hb0 : (0 : ℚ) < (b : ℚ) := by exact_mod_cast hb
  have hbne : (b : ℚ) ≠ 0 := ne_of_gt hb0
  have hN : b * (a / b) + a % b = a := Nat.div_add_mod a b
  have ha : (a : ℚ) = (b : ℚ) * ((a / b : Nat) : ℚ) + ((a % b : Nat) : ℚ) := by
    exact_mod_cast hN.symm
  have heq : ((a / b : Nat) : ℚ) - (a : ℚ) / (b : ℚ)
      = -(((a % b : Nat) : ℚ) / (b : ℚ)) := by
    rw [ha]; field_simp; ring
  rw [heq, abs_neg, abs_of_nonneg (by positivity)]
  rw [div_le_iff₀ hb0]
  have hq : 2 * ((a % b : Nat) : ℚ) ≤ (b : ℚ) := by exact_mod_cast h
  linarith

theorem div_ceil_close (a b : Nat) (hb : 0 < b)
    (h : b ≤ 2 * (a % b)) :
    |((a / b + 1 : Nat) : ℚ) - (a : ℚ) / (b : ℚ)| ≤ 1 / 2 := by
  have hb0 : (0 : ℚ) < (b : ℚ) := by exact_mod_cast hb
  have hbne : (b : ℚ) ≠ 0 := ne_of_gt hb0
  have hN : b * (a / b) + a % b = a := Nat.div_add_mod a b
  have ha : (a : ℚ) = (b : ℚ) * ((a / b : Nat) : ℚ) + ((a % b : Nat) : ℚ) := by
    exact_mod_cast hN.symm
  have hmod : ((a % b : Nat) : ℚ) < (b : ℚ) := by
    exact_mod_cast Nat.mod_lt a hb
  have heq : ((a / b + 1 : Nat) : ℚ) - (a : ℚ) / (b : ℚ)
      = ((b : ℚ) - ((a % b : Nat) : ℚ)) / (b : ℚ) := by
    push_cast
    rw [ha]; field_simp; ring
  rw [heq, abs_of_nonneg (div_nonneg (by linarith) hb0.le)]
  rw [div_le_iff₀ hb0]
  have hq : (b : ℚ) ≤ 2 * ((a % b : Nat) : ℚ) := by exact_mod_cast h
  linarith

theorem roundHalfEvenDiv_close (a b : Nat) (hb : 0 < b) :
    |((roundHalfEvenDiv a b : Nat) : ℚ) - (a : ℚ) / (b : ℚ)| ≤ 1 / 2 := by
  rw [roundHalfEvenDiv]
  split
  · exact div_floor_close a b hb (by omega)
  · split
    · exact div_ceil_close a b hb (by omega)
    · split
      · exact div_floor_close a b hb (by omega)
      · exact div_ceil_close a b hb (by omega)

theorem repr_lt_ten_length (k : Nat) (h : k < 10) : (Nat.repr k).length = 1 := by
  interval_cases k <;> rfl

theorem log_and_broadcast_lastN (l : List LogEntry) (e : LogEntry) :
    log_and_broadcast (l.drop (l.length - 100)) e
      = (l ++ [e]).drop ((l ++ [e]).length - 100) := by
  rw [log_and_broadcast]
  rcases Nat.lt_or_ge l.length 100 with h | h
  · have h1 : l.length - 100 = 0 := by omega
    rw [h1, List.drop_zero]
    have h2 : ¬ ((l ++ [e]).length > 100) := by simp; omega
    rw [if_neg h2]
    have h3 : (l ++ [e]).length - 100 = 0 := by simp; omega
    rw [h3, List.drop_zero]
  · have hdlen : (l.drop (l.length - 100)).length = 100 := by
      rw [List.length_drop]; omega
    have hcond : (l.drop (l.length - 100) ++ [e]).length > 100 := by
      simp [hdlen]
    rw [if_pos hcond]
    have h4 : (l.drop (l.length - 100) ++ [e]).length - 100 = 1 := by
      simp [hdlen]
    rw [h4]
    have h5 : (1 : Nat) ≤ (l.drop (l.length - 100)).length := by omega
    rw [List.drop_append_of_le_length h5, List.drop_drop]
    have h6 : (l ++ [e]).length - 100 = l.length - 100 + 1 := by simp; omega
    rw [h6]
    have h7 : l.length - 100 + 1 ≤ l.length := by omega
    rw [List.drop_append_of_le_length h7]

theorem log_fold_lastN (es : List LogEntry) :
    ∀ l : List LogEntry,
      List.foldl log_and_broadcast (l.drop (l.length - 100)) es
        = (l ++ es).drop ((l ++ es).length - 100) := by
  induction es with
  | nil => intro l; simp
  | cons e es ih =>
    intro l
    rw [List.foldl_cons, log_and_broadcast_lastN l e, ih (l ++ [e])]
    simp

theorem log_fold_lastN_nil (es : List LogEntry) :
    List.foldl log_and_broadcast [] es = es.drop (es.length - 100) := by
  have h := log_fold_lastN es []
  simpa using h

/-! ### Claims -/

/-- Claim C3, counterexample: `generate_report` is not byte-identical across
two calls with identical plan-length/results inputs — the embedded wall-clock
reading (`execution_time`, and the name of the report file written as a side
effect) differs between the calls. -/
theorem claim_C3_counterexample :
    generate_report ⟨"c", "w", [], [], none⟩ [] 0
      ≠ generate_report ⟨"c", "w", [], [], none⟩ [] 1
    ∧ generate_report_file ⟨"c", "w", [], [], none⟩ [] 0
      ≠ generate_report_file ⟨"c", "w", [], [], none⟩ [] 1 := by
  exact ⟨by decide, by decide⟩

/-- Claim C3, amended: every field of the report except the wall-clock-derived
`execution_time` (and the time-stamped file name of the on-disk write) is a
deterministic function of the plan, the results list and the execution log:
two calls with identical inputs at different times agree on the summary
counts, the success rate, the steps and the logs. -/
theorem claim_C3_amended (st : OrchestratorState) (results : List StepResult)
    (t1 t2 : Nat) :
    (generate_report st results t1).summary.total_steps
      = (generate_report st results t2).summary.total_steps
    ∧ (generate_report st results t1).summary.completed_steps
      = (generate_report st results t2).summary.completed_steps
    ∧ (generate_report st results t1).summary.success_rate
      = (generate_report st results t2).summary.success_rate
    ∧ (generate_report st results t1).steps = (generate_report st results t2).steps
    ∧ (generate_report st results t1).logs = (generate_report st results t2).logs :=
  ⟨rfl, rfl, rfl, rfl, rfl⟩

/-- Claim C5, counterexample: on OS-level resource exhaustion (`OSError`,
cannot fork) `execute_codex_command` does **not** raise to its caller — the
blanket `except Exception` handler converts it into an ordinary result
dictionary, so the call returns `.ok` where the claim demands an error. -/
theorem claim_C5_counterexample :
    execute_codex_command_catching ⟨"c", "w", [], [], none⟩ "x" "" 0
        (.raises .resourceExhaustion "OSError cannot fork")
      = .ok (⟨"c", "w", [], [], none⟩,
             ⟨0, "x", none, none, none, some "OSError cannot fork", false⟩)
    ∧ isResourceExhaustion (.raises .resourceExhaustion "OSError cannot fork")
      = true :=
  ⟨rfl, rfl⟩

/-- Claim C5, amended: `execute_codex_command` never raises past its boundary
for any subprocess behavior — expected failures (timeout, non-zero exit,
spawn failure) *and* unexpected exceptions including resource exhaustion are
all caught and reported as data: the `Except`-valued version always returns
`.ok` of the plain result, whose `success` field is `rc == 0` on normal
termination and `false` (with the error message recorded) on every
exceptional path. -/
theorem claim_C5_amended (st : OrchestratorState) (instruction context : String)
    (now : Nat) :
    (∀ beh : Behavior,
        execute_codex_command_catching st instruction context now beh
          = .ok (execute_codex_command st instruction context now beh))
    ∧ (∀ rc out err,
        (execute_codex_command st instruction context now (.normal rc out err)).2.success
          = (rc == 0))
    ∧ (∀ pout perr,
        (execute_codex_command st instruction context now (.timeoutExpired pout perr)).2.success
          = false
        ∧ (execute_codex_command st instruction context now (.timeoutExpired pout perr)).2.error
          = some "Timeout after 5 minutes")
    ∧ (∀ cls msg,
        (execute_codex_command st instruction context now (.raises cls msg)).2.success
          = false
        ∧ (execute_codex_command st instruction context now (.raises cls msg)).2.error
          = some msg) := by
  refine ⟨fun beh => ?_, fun rc out err => rfl, fun pout perr => ⟨rfl, rfl⟩,
    fun cls msg => ⟨rfl, rfl⟩⟩
  cases beh <;> rfl

/-- Claim C6, counterexample: on timeout the returned result dictionary has
no `stdout`/`stderr` keys at all — the output captured before termination
(carried by the `TimeoutExpired` exception) is discarded, contradicting the
claim that these fields reflect whatever was captured. -/
theorem claim_C6_counterexample :
    (execute_codex_command ⟨"c", "w", [], [], none⟩ "x" "" 0
        (.timeoutExpired "captured out" "captured err")).2.stdout = none
    ∧ (execute_codex_command ⟨"c", "w", [], [], none⟩ "x" "" 0
        (.timeoutExpired "captured out" "captured err")).2.stderr = none
    ∧ (execute_codex_command ⟨"c", "w", [], [], none⟩ "x" "" 0
        (.timeoutExpired "captured out" "captured err")).2.stdout
      ≠ some "captured out" :=
  ⟨rfl, rfl, by decide⟩

/-- Claim C6, amended: the subprocess wait uses the fixed 300-second timeout,
and when it elapses the process is killed and the call returns a reduced
result marking `success = false` with `error = "Timeout after 5 minutes"`;
the result carries no `stdout`/`stderr`/`returncode` fields (captured output
is discarded) and no distinct Timeout outcome tag. -/
theorem claim_C6_amended (st : OrchestratorState) (instruction context : String)
    (now : Nat) (pout perr : String) :
    codexTimeoutSeconds = 300
    ∧ execute_codex_command st instruction context now (.timeoutExpired pout perr)
      = (st, ⟨now, instruction, none, none, none,
              some "Timeout after 5 minutes", false⟩) :=
  ⟨rfl, rfl⟩

/-- Claim C7: a step whose `instruction` is empty is skipped — the loop
continues with the next step leaving state and results untouched, regardless
of the step's `critical` flag — and the two-step scenario
`[{"a", "echo hi", critical}, {"b", "", critical}]` with a succeeding first
step yields exactly one `ExecutionResult` and a report with
`total_steps = 2`, `completed_steps = 1`, `success_rate = "50.0%"`. -/
theorem claim_C7 (d c : String) (b : Bool) (rest : List Step) (i : Nat)
    (st : OrchestratorState) (acc : List StepResult)
    (beh : Nat → Behavior) (ts : Nat → Nat) :
    execute_plan_loop beh ts (⟨d, "", c, b⟩ :: rest) i st acc
      = execute_plan_loop beh ts rest (i + 1) st acc
    ∧ (execute_plan
        ⟨"cx", "w", [], [⟨"a", "echo hi", "", true⟩, ⟨"b", "", "", true⟩], none⟩
        (fun _ => .normal 0 "hi" "") (fun _ => 5) 7).2
      = ⟨⟨2, 1, "50.0%", 7⟩,
         [⟨1, "a", ⟨5, "echo hi", some "hi", some "", some 0, none, true⟩⟩],
         [⟨5, "echo hi", some "hi", some "", some 0, none, true⟩]⟩ := by
  constructor
  · rw [execute_plan_loop]; rw [if_pos rfl]
  · decide

/-- Claim C9, counterexample: a call whose subprocess times out returns an
`ExecutionResult` but appends nothing to the runner's execution log — the log
stays empty instead of receiving the returned result. -/
theorem claim_C9_counterexample :
    (execute_codex_command ⟨"c", "w", [], [], none⟩ "x" "" 0
        (.timeoutExpired "" "")).1.execution_log
      ≠ [] ++ [(execute_codex_command ⟨"c", "w", [], [], none⟩ "x" "" 0
        (.timeoutExpired "" "")).2]
    ∧ (execute_codex_command ⟨"c", "w", [], [], none⟩ "x" "" 0
        (.timeoutExpired "" "")).1.execution_log = [] :=
  ⟨by decide, rfl⟩

/-- Claim C9, amended: only a call whose subprocess terminates normally (exit
code observed, outcome Success or Failure) appends its returned result to the
execution log, and it changes no other runner state; on the timeout and
exception paths the result is returned without being logged and the runner
state is entirely unchanged. -/
theorem claim_C9_amended (st : OrchestratorState) (instruction context : String)
    (now : Nat) :
    (∀ rc out err,
        (execute_codex_command st instruction context now (.normal rc out err)).1
          = { st with execution_log := st.execution_log
                ++ [(execute_codex_command st instruction context now (.normal rc out err)).2] })
    ∧ (∀ pout perr,
        (execute_codex_command st instruction context now (.timeoutExpired pout perr)).1 = st)
    ∧ (∀ cls msg,
        (execute_codex_command st instruction context now (.raises cls msg)).1 = st) :=
  ⟨fun rc out err => rfl, fun pout perr => rfl, fun cls msg => rfl⟩

/-- Claim C10: the execution log is never cleared — a plan run only appends to
whatever the log already holds, and the produced report embeds the entire
accumulated log (earlier entries included) as its `logs` field; likewise any
single `execute_codex_command` call only ever extends the log. -/
theorem claim_C10 (st : OrchestratorState) (beh : Nat → Behavior)
    (ts : Nat → Nat) (now : Nat) :
    (∃ newEntries,
        (execute_plan st beh ts now).1.execution_log = st.execution_log ++ newEntries
        ∧ (execute_plan st beh ts now).2.logs = st.execution_log ++ newEntries)
    ∧ (∀ (instruction context : String) (beh2 : Behavior),
        ∃ tail, (execute_codex_command st instruction context now beh2).1.execution_log
          = st.execution_log ++ tail) := by
  constructor
  · obtain ⟨tail, h⟩ := loop_log_extends beh ts st.task_plan 1 st []
    exact ⟨tail, h, h⟩
  · intro instruction context beh2
    exact execute_log_extends ..

/-- Claim C1: steps are attempted strictly in order (the recorded step indices
are `1, 2, ...`); a plan whose steps are all non-critical (with nonempty
instructions) and all fail attempts every step and reports
`completed_steps = 0` with `total_steps = N`; a plan whose step `k`
(1-indexed, critical, nonempty instruction) fails after steps `1..k-1`
succeeded attempts exactly `k` steps and reports `completed_steps = k - 1`
with `total_steps = N`. -/
theorem claim_C1 (st : OrchestratorState) (beh : Nat → Behavior)
    (ts : Nat → Nat) (now : Nat) :
    ((∀ s ∈ st.task_plan, s.instruction ≠ "" ∧ s.critical = false) →
     (∀ j, behSuccess (beh j) = false) →
     (execute_plan st beh ts now).2.steps.length = st.task_plan.length
     ∧ (execute_plan st beh ts now).2.summary.completed_steps = 0
     ∧ (execute_plan st beh ts now).2.summary.total_steps = st.task_plan.length
     ∧ (execute_plan st beh ts now).2.steps.map (fun r => r.step)
         = stepIndices 1 st.task_plan.length)
    ∧ (∀ (pre : List Step) (fstep : Step) (post : List Step),
        st.task_plan = pre ++ fstep :: post →
        (∀ s ∈ pre, s.instruction ≠ "") → fstep.instruction ≠ "" →
        fstep.critical = true →
        (∀ j, 1 ≤ j → j ≤ pre.length → behSuccess (beh j) = true) →
        behSuccess (beh (pre.length + 1)) = false →
        (execute_plan st beh ts now).2.steps.length = pre.length + 1
        ∧ (execute_plan st beh ts now).2.summary.completed_steps = pre.length
        ∧ (execute_plan st beh ts now).2.summary.total_steps = st.task_plan.length
        ∧ (execute_plan st beh ts now).2.steps.map (fun r => r.step)
            = stepIndices 1 (pre.length + 1)) := by
  constructor
  · intro h hfail
    obtain ⟨hl, hf, hm⟩ := loop_noncrit_fail beh ts hfail st.task_plan 1 st [] h
    have e1 : (execute_plan st beh ts now).2.steps
        = (execute_plan_loop beh ts st.task_plan 1 st []).2 := rfl
    have e2 : (execute_plan st beh ts now).2.summary.completed_steps
        = ((execute_plan_loop beh ts st.task_plan 1 st []).2.filter
            (fun r => r.result.success)).length := rfl
    have e3 : (execute_plan st beh ts now).2.summary.total_steps
        = (execute_plan_loop beh ts st.task_plan 1 st []).1.task_plan.length := rfl
    refine ⟨?_, ?_, ?_, ?_⟩
    · rw [e1, hl]; simp
    · rw [e2, hf]; simp
    · rw [e3, loop_task_plan]
    · rw [e1, hm]; simp
  · intro pre fstep post hplan hpre hf1 hcrit hsucc hfail
    have hsucc2 : ∀ j, 1 ≤ j → j < 1 + pre.length → behSuccess (beh j) = true :=
      fun j hj1 hj2 => hsucc j hj1 (by omega)
    have hfail2 : behSuccess (beh (1 + pre.length)) = false := by
      rw [Nat.add_comm]; exact hfail
    obtain ⟨hl, hf, hm⟩ := loop_prefix_crit_fail beh ts pre fstep post 1 st []
      hpre hf1 hcrit hsucc2 hfail2
    have e1 : (execute_plan st beh ts now).2.steps
        = (execute_plan_loop beh ts st.task_plan 1 st []).2 := rfl
    have e2 : (execute_plan st beh ts now).2.summary.completed_steps
        = ((execute_plan_loop beh ts st.task_plan 1 st []).2.filter
            (fun r => r.result.success)).length := rfl
    have e3 : (execute_plan st beh ts now).2.summary.total_steps
        = (execute_plan_loop beh ts st.task_plan 1 st []).1.task_plan.length := rfl
    rw [hplan] at e1 e2 e3
    refine ⟨?_, ?_, ?_, ?_⟩
    · rw [e1, hl]; simp
    · rw [e2, hf]; simp
    · rw [e3, loop_task_plan]
    · rw [e1, hm]; simp

/-- Claim C1, witness: the two scenarios at concrete plans — two always-failing
non-critical steps, and a three-step plan whose second (critical) step fails
after the first succeeded. -/
theorem claim_C1_witness :
    ((execute_plan ⟨"c", "w", [], [⟨"s1", "i1", "", false⟩, ⟨"s2", "i2", "", false⟩], none⟩
        (fun _ => .normal 1 "" "") (fun _ => 0) 0).2.steps.length = 2
     ∧ (execute_plan ⟨"c", "w", [], [⟨"s1", "i1", "", false⟩, ⟨"s2", "i2", "", false⟩], none⟩
        (fun _ => .normal 1 "" "") (fun _ => 0) 0).2.summary.completed_steps = 0
     ∧ (execute_plan ⟨"c", "w", [], [⟨"s1", "i1", "", false⟩, ⟨"s2", "i2", "", false⟩], none⟩
        (fun _ => .normal 1 "" "") (fun _ => 0) 0).2.summary.total_steps = 2
     ∧ (execute_plan ⟨"c", "w", [], [⟨"s1", "i1", "", false⟩, ⟨"s2", "i2", "", false⟩], none⟩
        (fun _ => .normal 1 "" "") (fun _ => 0) 0).2.steps.map (fun r => r.step)
        = stepIndices 1 2)
    ∧ ((execute_plan ⟨"c", "w", [], [⟨"a", "ia", "", false⟩, ⟨"b", "ib", "", true⟩, ⟨"d", "id", "", true⟩], none⟩
        (fun j => if j = 1 then .normal 0 "" "" else .normal 1 "" "") (fun _ => 0) 0).2.steps.length = 2
     ∧ (execute_plan ⟨"c", "w", [], [⟨"a", "ia", "", false⟩, ⟨"b", "ib", "", true⟩, ⟨"d", "id", "", true⟩], none⟩
        (fun j => if j = 1 then .normal 0 "" "" else .normal 1 "" "") (fun _ => 0) 0).2.summary.completed_steps = 1
     ∧ (execute_plan ⟨"c", "w", [], [⟨"a", "ia", "", false⟩, ⟨"b", "ib", "", true⟩, ⟨"d", "id", "", true⟩], none⟩
        (fun j => if j = 1 then .normal 0 "" "" else .normal 1 "" "") (fun _ => 0) 0).2.summary.total_steps = 3
     ∧ (execute_plan ⟨"c", "w", [], [⟨"a", "ia", "", false⟩, ⟨"b", "ib", "", true⟩, ⟨"d", "id", "", true⟩], none⟩
        (fun j => if j = 1 then .normal 0 "" "" else .normal 1 "" "") (fun _ => 0) 0).2.steps.map (fun r => r.step)
        = stepIndices 1 2) := by
  constructor
  · exact (claim_C1 ⟨"c", "w", [], [⟨"s1", "i1", "", false⟩, ⟨"s2", "i2", "", false⟩], none⟩
      (fun _ => .normal 1 "" "") (fun _ => 0) 0).1 (by decide) (fun j => rfl)
  · exact (claim_C1 ⟨"c", "w", [], [⟨"a", "ia", "", false⟩, ⟨"b", "ib", "", true⟩, ⟨"d", "id", "", true⟩], none⟩
      (fun j => if j = 1 then .normal 0 "" "" else .normal 1 "" "") (fun _ => 0) 0).2
      [⟨"a", "ia", "", false⟩] ⟨"b", "ib", "", true⟩ [⟨"d", "id", "", true⟩]
      rfl (by decide) (by decide) rfl
      (fun j hj1 hj2 => by
        have : j = 1 := by simp at hj2; omega
        subst this; rfl)
      (by decide)

/-- Claim C2, counterexample: the monitored plan execution is not transparent —
on a plan whose only step has an empty instruction, the unwrapped executor
skips the step while the monitored one runs it, so the two return different
states and reports. -/
theorem claim_C2_counterexample :
    monitored_execute_plan ⟨"c", "w", [], [⟨"b", "", "", true⟩], none⟩
        (fun _ => .normal 0 "" "") (fun _ => 0) 0
      ≠ execute_plan ⟨"c", "w", [], [⟨"b", "", "", true⟩], none⟩
        (fun _ => .normal 0 "" "") (fun _ => 0) 0 := by
  decide

/-- Claim C2, amended: attaching the monitoring wrapper is report- and
state-transparent for every plan in which each step has a nonempty
instruction; the wrapper diverges only on empty-instruction steps, which the
unwrapped executor skips and the wrapper executes. -/
theorem claim_C2_amended (st : OrchestratorState) (beh : Nat → Behavior)
    (ts : Nat → Nat) (now : Nat)
    (h : ∀ s ∈ st.task_plan, s.instruction ≠ "") :
    monitored_execute_plan st beh ts now = execute_plan st beh ts now := by
  rw [monitored_execute_plan, execute_plan,
      monitored_loop_eq beh ts st.task_plan 1 st [] h]

/-- Claim C2 (amended), witness: the equality at a concrete one-step plan with
a nonempty instruction. -/
theorem claim_C2_amended_witness :
    monitored_execute_plan ⟨"c", "w", [], [⟨"a", "run", "", true⟩], none⟩
        (fun _ => .normal 0 "" "") (fun _ => 0) 0
      = execute_plan ⟨"c", "w", [], [⟨"a", "run", "", true⟩], none⟩
        (fun _ => .normal 0 "" "") (fun _ => 0) 0 :=
  claim_C2_amended ⟨"c", "w", [], [⟨"a", "run", "", true⟩], none⟩
    (fun _ => .normal 0 "" "") (fun _ => 0) 0 (by decide)

/-- Claim C4, counterexample: on a run with `total_steps = 0` (empty plan) the
report's `success_rate` is the literal string `"0%"`, which is not a
percentage formatted with one fractional digit (unlike, e.g., `"50.0%"`). -/
theorem claim_C4_counterexample :
    (execute_plan ⟨"c", "w", [], [], none⟩ (fun _ => .normal 0 "" "")
        (fun _ => 0) 0).2.summary.total_steps = 0
    ∧ (execute_plan ⟨"c", "w", [], [], none⟩ (fun _ => .normal 0 "" "")
        (fun _ => 0) 0).2.summary.success_rate = "0%"
    ∧ isOneFracDigitPercent "0%" = false
    ∧ isOneFracDigitPercent "50.0%" = true := by
  decide

/-- Claim C4, amended: `completed_steps` is the count of recorded results
whose outcome is Success; `total_steps` is the plan length fixed at run start
(independently of early termination, i.e. for every behavior oracle); and
`success_rate` is `completed/total` rendered as a percentage with one
fractional digit (within half an ulp of the exact rational, by round-half-even)
whenever `total_steps > 0`, while a run with `total_steps = 0` yields the
literal string `"0%"` without a fractional digit. -/
theorem claim_C4_amended (st : OrchestratorState) (beh : Nat → Behavior)
    (ts : Nat → Nat) (now : Nat) :
    (execute_plan st beh ts now).2.summary.completed_steps
      = ((execute_plan st beh ts now).2.steps.filter
          (fun r => r.result.success)).length
    ∧ (execute_plan st beh ts now).2.summary.total_steps = st.task_plan.length
    ∧ (st.task_plan.length = 0 →
        (execute_plan st beh ts now).2.summary.success_rate = "0%")
    ∧ (0 < st.task_plan.length → ∃ n : Nat,
        (execute_plan st beh ts now).2.summary.success_rate
          = Nat.repr (n / 10) ++ "." ++ Nat.repr (n % 10) ++ "%"
        ∧ (Nat.repr (n % 10)).length = 1
        ∧ |(n : ℚ) - 1000 * ((execute_plan st beh ts now).2.summary.completed_steps : ℚ)
              / ((execute_plan st beh ts now).2.summary.total_steps : ℚ)| ≤ 1 / 2) := by
  have etotal : (execute_plan st beh ts now).2.summary.total_steps
      = st.task_plan.length := by
    rw [show (execute_plan st beh ts now).2.summary.total_steps
        = (execute_plan_loop beh ts st.task_plan 1 st []).1.task_plan.length from rfl,
      loop_task_plan]
  have hsr : (execute_plan st beh ts now).2.summary.success_rate
      = success_rate_str
          ((execute_plan_loop beh ts st.task_plan 1 st []).2.filter
            (fun r => r.result.success)).length st.task_plan.length := by
    rw [show (execute_plan st beh ts now).2.summary.success_rate
        = success_rate_str
            ((execute_plan_loop beh ts st.task_plan 1 st []).2.filter
              (fun r => r.result.success)).length
            ((execute_plan_loop beh ts st.task_plan 1 st []).1.task_plan.length) from rfl,
      loop_task_plan]
  refine ⟨rfl, etotal, ?_, ?_⟩
  · intro h0
    rw [hsr, h0]
    simp [success_rate_str]
  · intro hpos
    refine ⟨roundHalfEvenDiv
      (1000 * ((execute_plan_loop beh ts st.task_plan 1 st []).2.filter
        (fun r => r.result.success)).length) st.task_plan.length, ?_, ?_, ?_⟩
    · rw [hsr, success_rate_str, if_pos hpos, formatRate1f]
    · exact repr_lt_ten_length _ (Nat.mod_lt _ (by omega))
    · rw [show (execute_plan st beh ts now).2.summary.completed_steps
          = ((execute_plan_loop beh ts st.task_plan 1 st []).2.filter
              (fun r => r.result.success)).length from rfl, etotal]
      have hb := roundHalfEvenDiv_close
        (1000 * ((execute_plan_loop beh ts st.task_plan 1 st []).2.filter
          (fun r => r.result.success)).length) st.task_plan.length hpos
      push_cast at hb ⊢
      convert hb using 3

/-- Claim C4 (amended), witness: the zero-plan case yields `"0%"`, and a
one-step succeeding plan yields a one-fractional-digit percentage within half
an ulp of the exact rate. -/
theorem claim_C4_witness :
    (execute_plan ⟨"c", "w", [], [], none⟩ (fun _ => .normal 0 "" "")
        (fun _ => 0) 0).2.summary.success_rate = "0%"
    ∧ (∃ n : Nat,
        (execute_plan ⟨"c", "w", [], [⟨"a", "x", "", true⟩], none⟩
            (fun _ => .normal 0 "" "") (fun _ => 0) 0).2.summary.success_rate
          = Nat.repr (n / 10) ++ "." ++ Nat.repr (n % 10) ++ "%"
        ∧ (Nat.repr (n % 10)).length = 1
        ∧ |(n : ℚ) - 1000 * ((execute_plan ⟨"c", "w", [], [⟨"a", "x", "", true⟩], none⟩
              (fun _ => .normal 0 "" "") (fun _ => 0) 0).2.summary.completed_steps : ℚ)
              / ((execute_plan ⟨"c", "w", [], [⟨"a", "x", "", true⟩], none⟩
              (fun _ => .normal 0 "" "") (fun _ => 0) 0).2.summary.total_steps : ℚ)| ≤ 1 / 2) := by
  constructor
  · exact (claim_C4_amended ⟨"c", "w", [], [], none⟩ (fun _ => .normal 0 "" "")
      (fun _ => 0) 0).2.2.1 rfl
  · exact (claim_C4_amended ⟨"c", "w", [], [⟨"a", "x", "", true⟩], none⟩
      (fun _ => .normal 0 "" "") (fun _ => 0) 0).2.2.2 (by decide)

/-- Claim C8: publishing any sequence of more than 100 log events starting
from an empty history retains exactly the most recent 100, oldest first, and
the replay sent to a newly connecting observer is that bounded list. -/
theorem claim_C8 (entries : List LogEntry) (h : entries.length > 100) :
    List.foldl log_and_broadcast [] entries
      = entries.drop (entries.length - 100)
    ∧ (List.foldl log_and_broadcast [] entries).length = 100
    ∧ handle_connect_replay (List.foldl log_and_broadcast [] entries)
      = entries.drop (entries.length - 100) := by
  have h1 := log_fold_lastN_nil entries
  refine ⟨h1, ?_, h1⟩
  rw [h1, List.length_drop]
  omega

/-- Claim C8, witness: publishing 150 events leaves exactly 100 in history. -/
theorem claim_C8_witness :
    ((List.range 150).map (fun k => (⟨k, "info", "line"⟩ : LogEntry))).length > 100
    ∧ (List.foldl log_and_broadcast []
        ((List.range 150).map (fun k => (⟨k, "info", "line"⟩ : LogEntry)))).length
      = 100 := by
  have hlen : ((List.range 150).map
      (fun k => (⟨k, "info", "line"⟩ : LogEntry))).length > 100 := by simp
  exact ⟨hlen, (claim_C8 _ hlen).2.1⟩

